import Mathlib

/-!
Shallow embedding of the unit-commitment repository.

Source layout:
  src/core/unit.py          — Unit value type with construction-time validation
  src/core/demand.py        — Demand value type with construction-time validation
  src/core/solution.py      — Solution record with accessors
  src/validators/constraint_validator.py — ConstraintValidator (post-solve audit)
  src/optimizers/single_period_optimizer.py — SinglePeriodOptimizer
  src/optimizers/multi_period_optimizer.py  — MultiPeriodOptimizer

Reals are modelled as rationals.  The float sentinel `float('inf')` used for
unbounded ramp rates is modelled by `Option ℚ` with `none` standing for the
sentinel (`some r` is a finite rate `r`).  Python exceptions are modelled by
`Except`: each `raise` site is mapped to the error kind of the spec taxonomy
that the raised message corresponds to.  The MILP backend (PuLP) is out of
scope per the spec and is modelled as an oracle supplying a solver status and
values for every decision variable.
-/

namespace UC

/-- Error taxonomy of the spec (section 7); every `raise` in the source is
mapped to its kind.  `valueError` covers the generic `ValueError` raised by
`Unit.calculate_production_cost`, which has no kind in the taxonomy. -/
inductive UCError where
  | invalidUnit : UCError
  | invalidDemand : UCError
  | inputShape : UCError
  | infeasibleCapacity : UCError
  | indexError : UCError
  | valueError : UCError
  deriving DecidableEq

/-- Kinds of constraint violations the auditor can raise, one per private
check method of `ConstraintValidator`. -/
inductive VKind where
  | balance : VKind
  | capacity : VKind
  | ramp : VKind
  | minUpDown : VKind
  deriving DecidableEq

/-- A `ConstraintViolation`: kind plus the optional unit id and period carried
by the raised message (spec section 4.4). -/
structure Violation where
  kind : VKind
  unit_id : Option Int
  period : Option Nat
  deriving DecidableEq

/-- Decidable equality of `Except` values with decidable components. -/
instance {ε : Type u} {α : Type v} [DecidableEq ε] [DecidableEq α] :
    DecidableEq (Except ε α) := fun x y =>
  match x, y with
  | .ok a, .ok b =>
    if h : a = b then isTrue (by rw [h])
    else isFalse (by intro hh; cases hh; exact h rfl)
  | .ok _, .error _ => isFalse (by intro hh; cases hh)
  | .error _, .ok _ => isFalse (by intro hh; cases hh)
  | .error e, .error f =>
    if h : e = f then isTrue (by rw [h])
    else isFalse (by intro hh; cases hh; exact h rfl)

/-- The audit tolerance hard-coded as `1e-6` at every comparison site in
`constraint_validator.py`. -/
def eps : ℚ := 1 / 1000000

/-- Source `src/core/unit.py`, dataclass `Unit`.  Field for field the Python
dataclass; `ramp_up_rate`/`ramp_down_rate` use `none` for the
`float('inf')` default sentinel. -/
structure Unit where
  id : Int
  name : String
  min_power : ℚ
  max_power : ℚ
  startup_cost : ℚ
  shutdown_cost : ℚ
  fuel_cost : ℚ
  min_uptime : Int
  min_downtime : Int
  ramp_up_rate : Option ℚ
  ramp_down_rate : Option ℚ
  initial_status : Int
  initial_power : ℚ
  deriving DecidableEq

/-- Placeholder unit used only as the default of `List.getD`; every theorem
indexes within bounds so the default is never read. -/
def dUnit : Unit :=
  ⟨0, (""), 0, 0, 0, 0, 0, 1, 1, none, none, 0, 0⟩

instance : Inhabited Unit := ⟨dUnit⟩

/-- Construction `Unit.__post_init__` combined with dataclass construction: the checks of
`unit.py` lines 43–52 in source order; on success the dataclass instance with
exactly the given fields is produced.  Note the source validates
`startup_cost` and `shutdown_cost` but never `fuel_cost`. -/
def mkUnit (id : Int) (name : String) (min_power max_power : ℚ)
    (startup_cost shutdown_cost fuel_cost : ℚ)
    (min_uptime min_downtime : Int)
    (ramp_up_rate ramp_down_rate : Option ℚ)
    (initial_status : Int) (initial_power : ℚ) : Except UCError Unit :=
  if min_power < 0 then .error .invalidUnit
  else if max_power < min_power then .error .invalidUnit
  else if startup_cost < 0 ∨ shutdown_cost < 0 then .error .invalidUnit
  else if min_uptime < 1 ∨ min_downtime < 1 then .error .invalidUnit
  else .ok ⟨id, name, min_power, max_power, startup_cost, shutdown_cost,
            fuel_cost, min_uptime, min_downtime, ramp_up_rate, ramp_down_rate,
            initial_status, initial_power⟩

/-- Method `Unit.can_produce` (unit.py line 54). -/
def Unit.can_produce (u : Unit) (power : ℚ) : Bool :=
  u.min_power ≤ power ∧ power ≤ u.max_power

/-- Method `Unit.calculate_production_cost` (unit.py line 58): raises `ValueError`
when `can_produce` is false, otherwise returns `power * fuel_cost`. -/
def Unit.calculate_production_cost (u : Unit) (power : ℚ) : Except UCError ℚ :=
  if u.can_produce power then .ok (power * u.fuel_cost)
  else .error .valueError

/-- Source `src/core/demand.py`, dataclass `Demand`. -/
structure Demand where
  values : List ℚ
  deriving DecidableEq

/-- Construction `Demand.__post_init__` combined with dataclass construction
(demand.py lines 19–24). -/
def mkDemand (values : List ℚ) : Except UCError Demand :=
  if values.isEmpty then .error .invalidDemand
  else if values.any (fun d => d < 0) then .error .invalidDemand
  else .ok ⟨values⟩

/-- Method `Demand.get_periods` (demand.py line 32). -/
def Demand.get_periods (d : Demand) : Nat :=
  d.values.length

/-- Method `Demand.get_demand` (demand.py line 26): guarded indexing, raising
`IndexError` out of range.  The period argument is an arbitrary integer as in
Python. -/
def Demand.get_demand (d : Demand) (period : Int) : Except UCError ℚ :=
  if 0 ≤ period ∧ period < (d.values.length : Int) then
    .ok (d.values.getD period.toNat 0)
  else .error .indexError

/-- Method `Demand.get_total_demand` (demand.py line 36). -/
def Demand.get_total_demand (d : Demand) : ℚ :=
  d.values.sum

/-- Method `Demand.get_peak_demand` (demand.py line 40): Python `max(values)` on the
(non-empty, by construction) list. -/
def Demand.get_peak_demand (d : Demand) : ℚ :=
  d.values.foldl max (d.values.headD 0)

/-- Metadata values: the solution metadata dict maps string tags to either
strings (solver status) or numbers (counts, aggregates). -/
inductive MetaVal where
  | str : String → MetaVal
  | num : ℚ → MetaVal
  deriving DecidableEq

/-- Source `src/core/solution.py`, dataclass `Solution`.  `solve_time` is wall-clock
time in the source; it is carried but never interpreted. -/
structure Solution where
  status : List (List Int)
  power : List (List ℚ)
  total_cost : ℚ
  is_optimal : Bool
  solve_time : ℚ
  metadata : List (String × MetaVal)
  deriving DecidableEq

/-- Method `Solution.get_unit_status` (solution.py line 29).  In-range indexing
(the only use the source makes of it); out of range the Python code would
raise, here the default 0 is returned and every theorem stays in range. -/
def Solution.get_unit_status (s : Solution) (unit_idx period : Nat) : Int :=
  (s.status.getD unit_idx []).getD period 0

/-- Method `Solution.get_unit_power` (solution.py line 33). -/
def Solution.get_unit_power (s : Solution) (unit_idx period : Nat) : ℚ :=
  (s.power.getD unit_idx []).getD period 0

/-- Method `Solution.get_total_power` (solution.py line 37):
`sum(power[i][period] for i in range(len(power)))`. -/
def Solution.get_total_power (s : Solution) (period : Nat) : ℚ :=
  (s.power.map (fun row => row.getD period 0)).sum

/-- Method `Solution.get_num_units` (solution.py line 41). -/
def Solution.get_num_units (s : Solution) : Nat :=
  s.status.length

/-- Method `Solution.get_num_periods` (solution.py line 45):
`len(status[0]) if status else 0`. -/
def Solution.get_num_periods (s : Solution) : Nat :=
  match s.status with
  | [] => 0
  | row :: _ => row.length

/-! ## Constraint auditor (`src/validators/constraint_validator.py`) -/

/-- Violation test of `_validate_power_balance` at period `t`
(constraint_validator.py line 32): `abs(total_power - required_demand) > 1e-6`.
The demand lookup is `demand.get_demand(t)`, in range for every `t` the check
iterates over. -/
def balViol (s : Solution) (d : Demand) (t : Nat) : Bool :=
  |s.get_total_power t - d.values.getD t 0| > eps

/-- Check `ConstraintValidator._validate_power_balance` (lines 26–36): scans periods
`0..demand.get_periods()-1` in order and raises on the first violating one. -/
def validate_power_balance (s : Solution) (d : Demand) : Except Violation Bool :=
  match (List.range d.get_periods).find? (fun t => balViol s d t) with
  | some t => .error ⟨.balance, none, some t⟩
  | none => .ok true

/-- Violation test of `_validate_capacity_limits` for unit `u` with status
`st` and power `pw` (lines 46–57): committed units must lie in
`[min_power - 1e-6, max_power + 1e-6]`, uncommitted units must produce at most
`1e-6`; any other status value is not checked (`if`/`elif`). -/
def capViol (u : Unit) (st : Int) (pw : ℚ) : Bool :=
  if st = 1 then pw < u.min_power - eps ∨ pw > u.max_power + eps
  else if st = 0 then pw > eps
  else false

/-- The `(unit index, period)` pairs in the iteration order shared by the
capacity and ramp checks: units outer, periods inner. -/
def idxPairs (n T : Nat) : List (Nat × Nat) :=
  (List.range n).flatMap (fun i => (List.range T).map (fun t => (i, t)))

/-- Check `ConstraintValidator._validate_capacity_limits` (lines 38–57): iterates
units in order (outer) and periods `0..solution.get_num_periods()-1` (inner),
raising on the first violating pair. -/
def validate_capacity_limits (s : Solution) (units : List Unit) :
    Except Violation Bool :=
  match (idxPairs units.length s.get_num_periods).find?
      (fun it => capViol (units.getD it.1 dUnit)
        (s.get_unit_status it.1 it.2) (s.get_unit_power it.1 it.2)) with
  | some it => .error ⟨.capacity, some (units.getD it.1 dUnit).id, some it.2⟩
  | none => .ok true

/-- Previous-period power used by the ramp check at period `t`
(lines 66–71, 85): `initial_power` at `t = 0`, else `power[i][t-1]`. -/
def prevPower (u : Unit) (s : Solution) (i t : Nat) : ℚ :=
  if t = 0 then u.initial_power else s.get_unit_power i (t - 1)

/-- Ramp-up violation test (line 73): `power_change > ramp_up_rate + 1e-6`;
with the infinity sentinel (`none`) the comparison is always false. -/
def rampUpViol (u : Unit) (s : Solution) (i t : Nat) : Bool :=
  match u.ramp_up_rate with
  | none => false
  | some r => s.get_unit_power i t - prevPower u s i t > r + eps

/-- Ramp-down violation test (line 79): `power_change < -ramp_down_rate - 1e-6`. -/
def rampDownViol (u : Unit) (s : Solution) (i t : Nat) : Bool :=
  match u.ramp_down_rate with
  | none => false
  | some r => s.get_unit_power i t - prevPower u s i t < -r - eps

/-- Check `ConstraintValidator._validate_ramp_rates` (lines 59–85): returns at once
when the solution has at most one period, otherwise scans (unit, period)
pairs in order; at each period the up test precedes the down test. -/
def validate_ramp_rates (s : Solution) (units : List Unit) :
    Except Violation Bool :=
  if s.get_num_periods ≤ 1 then .ok true
  else
    match (idxPairs units.length s.get_num_periods).find?
        (fun it => rampUpViol (units.getD it.1 dUnit) s it.1 it.2 ∨
          rampDownViol (units.getD it.1 dUnit) s it.1 it.2) with
    | some it => .error ⟨.ramp, some (units.getD it.1 dUnit).id, some it.2⟩
    | none => .ok true

/-- The per-unit walk of `_validate_min_uptime_downtime` (lines 96–118),
with state (previous status, consecutive-on count, consecutive-off count)
exactly as the Python loop maintains it: on a committed period the on-count
is incremented and, on a 0→1 edge, the off-run is checked against
`min_downtime` before the off-count resets; symmetrically on the other
branch (which, like the Python `else`, covers any non-1 status). -/
def mudWalk (u : Unit) (statuses : List Int) (prev con_on con_off : Int)
    (t : Nat) : Except Violation Bool :=
  match statuses with
  | [] => .ok true
  | curr :: rest =>
    if curr = 1 then
      if prev = 0 then
        if con_off < u.min_downtime then .error ⟨.minUpDown, some u.id, some t⟩
        else mudWalk u rest curr (con_on + 1) 0 (t + 1)
      else mudWalk u rest curr (con_on + 1) con_off (t + 1)
    else
      if prev = 1 then
        if con_on < u.min_uptime then .error ⟨.minUpDown, some u.id, some t⟩
        else mudWalk u rest curr 0 (con_off + 1) (t + 1)
      else mudWalk u rest curr con_on (con_off + 1) (t + 1)

/-- Initial walk state for one unit (lines 92–94): `prev = initial_status`,
`consecutive_on = 0 if off else 1`, `consecutive_off = 0 if on else 1`. -/
def mudWalkUnit (u : Unit) (s : Solution) (i : Nat) : Except Violation Bool :=
  mudWalk u ((List.range s.get_num_periods).map (fun t => s.get_unit_status i t))
    u.initial_status
    (if u.initial_status = 0 then 0 else 1)
    (if u.initial_status = 1 then 0 else 1)
    0

/-- Check `ConstraintValidator._validate_min_uptime_downtime` (lines 87–118):
the walk is run for each unit in order; the first failing unit raises. -/
def validate_min_uptime_downtime (s : Solution) (units : List Unit) :
    Except Violation Bool :=
  go s units.enum
where
  /-- Sequential composition of the per-unit walks. -/
  go (s : Solution) : List (Nat × Unit) → Except Violation Bool
    | [] => .ok true
    | (i, u) :: rest => do
      let _ ← mudWalkUnit u s i
      go s rest

/-- Method `ConstraintValidator.validate_solution` (lines 17–24): the four checks in
their fixed source order, short-circuiting on the first raised violation,
`True` when all pass. -/
def validate_solution (s : Solution) (units : List Unit) (d : Demand) :
    Except Violation Bool := do
  let _ ← validate_power_balance s d
  let _ ← validate_capacity_limits s units
  let _ ← validate_ramp_rates s units
  let _ ← validate_min_uptime_downtime s units
  .ok true

/-! ## Input validation (`validate_inputs` of both optimizers) -/

/-- Expression `sum(unit.max_power for unit in units)` (single_period_optimizer.py
line 58, multi_period_optimizer.py line 71). -/
def totalCapacity (units : List Unit) : ℚ :=
  (units.map (fun u => u.max_power)).sum

/-- Method `SinglePeriodOptimizer.validate_inputs` (single_period_optimizer.py
lines 46–67): empty unit list and wrong period count raise the shape error,
then insufficient total capacity against `demand.get_demand(0)` raises the
capacity error, else `True`. -/
def validateSingle (tol : ℚ) (units : List Unit) (d : Demand) :
    Except UCError Bool :=
  if units.isEmpty then .error .inputShape
  else if d.get_periods ≠ 1 then .error .inputShape
  else do
    let required ← d.get_demand 0
    if totalCapacity units < required - tol then .error .infeasibleCapacity
    else .ok true

/-- Method `MultiPeriodOptimizer.validate_inputs` (multi_period_optimizer.py
lines 58–80): empty unit list and `T < 2` raise the shape error, then
insufficient total capacity against the peak demand raises the capacity
error, else `True`. -/
def validateMulti (tol : ℚ) (units : List Unit) (d : Demand) :
    Except UCError Bool :=
  if units.isEmpty then .error .inputShape
  else if d.get_periods < 2 then .error .inputShape
  else if totalCapacity units < d.get_peak_demand - tol then
    .error .infeasibleCapacity
  else .ok true

/-! ## Single-period model (`SinglePeriodOptimizer.optimize`, lines 90–115) -/

/-- The data handed to the solver by the single-period builder: per-unit
objective coefficients on `(u_i, p_i)` (startup cost and fuel cost,
lines 102–104), per-unit upper bounds on `p_i` (line 97), the balance
right-hand side (line 107), and the per-unit `(min_power, max_power)`
capacity coefficients (lines 110–115). -/
structure SPProblem where
  objTerms : List (ℚ × ℚ)
  pUpBounds : List ℚ
  demandRhs : ℚ
  capacity : List (ℚ × ℚ)
  deriving DecidableEq

/-- The single-period MILP constructed from the unit list and
`D = demand.get_demand(0)` — a faithful record of every number the source
passes to the solver. -/
def buildSingle (units : List Unit) (D : ℚ) : SPProblem :=
  { objTerms := units.map (fun u => (u.startup_cost, u.fuel_cost))
    pUpBounds := units.map (fun u => u.max_power)
    demandRhs := D
    capacity := units.map (fun u => (u.min_power, u.max_power)) }

/-- Objective value of the built problem at an assignment of the binary
variables `uv` and power variables `pv`. -/
def spObjective (pr : SPProblem) (uv : List Int) (pv : List ℚ) : ℚ :=
  ((pr.objTerms.zip (uv.zip pv)).map
    (fun cup => cup.1.1 * (cup.2.1 : ℚ) + cup.1.2 * cup.2.2)).sum

/-- The constraints of the built problem at an assignment: variable bounds
(`u` binary, `0 ≤ p ≤ upper bound`), the balance equality and the per-unit
capacity inequalities. -/
def spFeasible (pr : SPProblem) (uv : List Int) (pv : List ℚ) : Prop :=
  (∀ i, i < pr.objTerms.length →
      (uv.getD i 0 = 0 ∨ uv.getD i 0 = 1) ∧
      0 ≤ pv.getD i 0 ∧ pv.getD i 0 ≤ pr.pUpBounds.getD i 0) ∧
  pv.sum = pr.demandRhs ∧
  (∀ i, i < pr.capacity.length →
      (pr.capacity.getD i (0, 0)).1 * ((uv.getD i 0 : Int) : ℚ) ≤ pv.getD i 0 ∧
      pv.getD i 0 ≤ (pr.capacity.getD i (0, 0)).2 * ((uv.getD i 0 : Int) : ℚ))

/-- Erases the fields the single-period builder is claimed not to read:
`shutdown_cost`, `initial_status` and `initial_power`. -/
def scrubSP (u : Unit) : Unit :=
  { u with shutdown_cost := 0, initial_status := 0, initial_power := 0 }

/-! ## Multi-period model (`MultiPeriodOptimizer.optimize`, lines 98–224)

The decision variables are the `n × T` tables `u`, `p`, `v`, `w`; an
assignment is given as rectangular lists.  The emitted constraint families
are modelled as explicit lists mirroring the source loops, so that emission
(and omission) is itself a provable property. -/

/-- Table lookup `u[i][t]` for an integer-valued variable assignment. -/
def tblI (a : List (List Int)) (i t : Nat) : Int :=
  (a.getD i []).getD t 0

/-- Table lookup `p[i][t]` for a rational-valued variable assignment. -/
def tblQ (a : List (List ℚ)) (i t : Nat) : ℚ :=
  (a.getD i []).getD t 0

/-- One emitted minimum-uptime (resp. downtime) constraint: for unit index
`i` and period `t`, the window `τ = t .. t + req - 1` and the requirement
`req` (the unit's `min_uptime`, resp. `min_downtime`). -/
structure MUC where
  i : Nat
  t : Nat
  window : List Nat
  req : Int
  deriving DecidableEq

/-- Minimum-uptime constraints emitted by lines 180–189: for each unit `i`
and period `t` in loop order, the constraint is added exactly under the
guard `t + min_up <= T`, with the untruncated window `range(t, t + min_up)`. -/
def minUptimeConstraints (units : List Unit) (T : Nat) : List MUC :=
  (List.range units.length).flatMap (fun i =>
    (List.range T).filterMap (fun (t : Nat) =>
      if (t : Int) + (units.getD i dUnit).min_uptime ≤ (T : Int) then
        some ⟨i, t, (List.range (units.getD i dUnit).min_uptime.toNat).map
          (fun k => t + k), (units.getD i dUnit).min_uptime⟩
      else none))

/-- Minimum-downtime constraints emitted by lines 191–200, same shape with
`min_downtime`. -/
def minDowntimeConstraints (units : List Unit) (T : Nat) : List MUC :=
  (List.range units.length).flatMap (fun i =>
    (List.range T).filterMap (fun (t : Nat) =>
      if (t : Int) + (units.getD i dUnit).min_downtime ≤ (T : Int) then
        some ⟨i, t, (List.range (units.getD i dUnit).min_downtime.toNat).map
          (fun k => t + k), (units.getD i dUnit).min_downtime⟩
      else none))

/-- Satisfaction of one minimum-uptime constraint
(line 187): `Σ_{τ ∈ window} u[i][τ] ≥ req · v[i][t]`. -/
def mucUpSat (uTab vTab : List (List Int)) (c : MUC) : Bool :=
  (c.window.map (fun τ => tblI uTab c.i τ)).sum ≥ c.req * tblI vTab c.i c.t

/-- Satisfaction of one minimum-downtime constraint
(line 198): `Σ_{τ ∈ window} (1 - u[i][τ]) ≥ req · w[i][t]`. -/
def mucDownSat (uTab wTab : List (List Int)) (c : MUC) : Bool :=
  (c.window.map (fun τ => 1 - tblI uTab c.i τ)).sum ≥ c.req * tblI wTab c.i c.t

/-- Side of a ramp constraint. -/
inductive RSide where
  | up : RSide
  | down : RSide
  deriving DecidableEq

/-- One emitted ramp constraint: unit index, period, side and the finite
bound. -/
structure RampC where
  i : Nat
  t : Nat
  side : RSide
  bound : ℚ
  deriving DecidableEq

/-- Ramp constraints emitted by lines 202–224: the outer guard skips a unit
with both rates infinite; inside, for every period, the up constraint is
added exactly when `ramp_up_rate` is finite and the down constraint exactly
when `ramp_down_rate` is finite (up before down at each period). -/
def rampConstraints (units : List Unit) (T : Nat) : List RampC :=
  (List.range units.length).flatMap (fun i =>
    let u := units.getD i dUnit
    if u.ramp_up_rate.isSome ∨ u.ramp_down_rate.isSome then
      (List.range T).flatMap (fun t =>
        (match u.ramp_up_rate with
          | some r => [(⟨i, t, .up, r⟩ : RampC)]
          | none => []) ++
        (match u.ramp_down_rate with
          | some r => [(⟨i, t, .down, r⟩ : RampC)]
          | none => []))
    else [])

/-- Previous-period power expression used by the ramp constraints
(lines 206–210): `initial_power` at `t = 0`, else the variable `p[i][t-1]`. -/
def prevPowerVar (units : List Unit) (pTab : List (List ℚ)) (i t : Nat) : ℚ :=
  if t = 0 then (units.getD i dUnit).initial_power else tblQ pTab i (t - 1)

/-- Satisfaction of one ramp constraint (lines 213–224):
`p[i][t] - prev ≤ bound` on the up side, `prev - p[i][t] ≤ bound` on the
down side. -/
def rampSat (units : List Unit) (pTab : List (List ℚ)) (c : RampC) : Bool :=
  match c.side with
  | .up => tblQ pTab c.i c.t - prevPowerVar units pTab c.i c.t ≤ c.bound
  | .down => prevPowerVar units pTab c.i c.t - tblQ pTab c.i c.t ≤ c.bound

/-- Shape of a rectangular `n × T` variable table. -/
def rectI (a : List (List Int)) (n T : Nat) : Bool :=
  a.length = n ∧ a.all (fun row => row.length = T)

/-- Shape of a rectangular `n × T` rational table. -/
def rectQ (a : List (List ℚ)) (n T : Nat) : Bool :=
  a.length = n ∧ a.all (fun row => row.length = T)

/-- Satisfaction of every constraint of the multi-period MILP of
lines 104–224 by an `n × T` assignment of the tables `u`, `p`, `v`, `w`:
variable declarations (binaries, `0 ≤ p[i][t] ≤ max_power_i`), power
balance per period (lines 143–147), capacity coupling (lines 149–162),
startup/shutdown state transition against `initial_status` (lines 164–178),
the emitted minimum up/down window constraints and the emitted ramp
constraints. -/
def multiModelOK (units : List Unit) (d : Demand)
    (uTab : List (List Int)) (pTab : List (List ℚ))
    (vTab wTab : List (List Int)) : Bool :=
  let n := units.length
  let T := d.get_periods
  rectI uTab n T ∧ rectQ pTab n T ∧ rectI vTab n T ∧ rectI wTab n T ∧
  (List.range n).all (fun i => (List.range T).all (fun t =>
    (tblI uTab i t = 0 ∨ tblI uTab i t = 1) ∧
    (tblI vTab i t = 0 ∨ tblI vTab i t = 1) ∧
    (tblI wTab i t = 0 ∨ tblI wTab i t = 1) ∧
    0 ≤ tblQ pTab i t ∧ tblQ pTab i t ≤ (units.getD i dUnit).max_power)) ∧
  (List.range T).all (fun t =>
    ((List.range n).map (fun i => tblQ pTab i t)).sum = d.values.getD t 0) ∧
  (List.range n).all (fun i => (List.range T).all (fun t =>
    (units.getD i dUnit).min_power * ((tblI uTab i t : Int) : ℚ) ≤ tblQ pTab i t ∧
    tblQ pTab i t ≤ (units.getD i dUnit).max_power * ((tblI uTab i t : Int) : ℚ))) ∧
  (List.range n).all (fun i => (List.range T).all (fun t =>
    tblI vTab i t - tblI wTab i t =
      tblI uTab i t -
        (if t = 0 then (units.getD i dUnit).initial_status
         else tblI uTab i (t - 1)))) ∧
  (minUptimeConstraints units T).all (fun c => mucUpSat uTab vTab c) ∧
  (minDowntimeConstraints units T).all (fun c => mucDownSat uTab wTab c) ∧
  (rampConstraints units T).all (fun c => rampSat units pTab c)

/-! ## The solver oracle and `optimize`

PuLP (`problem.solve()`, `LpStatus`, `value(...)`) is the black-box backend.
An oracle models one `solve` outcome: the status tag and a value for every
decision variable.  `optimize` is then a pure function of (oracle, units,
demand), reproducing the source control flow: validate, build, solve,
extract, audit, return. -/

/-- PuLP status tags (`LpStatus[problem.status]`). -/
inductive SolverStatus where
  | Optimal : SolverStatus
  | NotSolved : SolverStatus
  | Infeasible : SolverStatus
  | Unbounded : SolverStatus
  | Undefined : SolverStatus
  deriving DecidableEq

/-- The status string `LpStatus[problem.status]` stored in the metadata. -/
def SolverStatus.text : SolverStatus → String
  | .Optimal => "Optimal"
  | .NotSolved => "Not Solved"
  | .Infeasible => "Infeasible"
  | .Unbounded => "Unbounded"
  | .Undefined => "Undefined"

/-- Backend outcome for the single-period problem: a status, a value for
each `u_i` and `p_i`, and the objective value. -/
structure OracleS where
  status : SolverStatus
  u : List Int
  p : List ℚ
  objective : ℚ

/-- Backend outcome for the multi-period problem: a status, a value for each
`u[i][t]`, `p[i][t]`, `v[i][t]`, `w[i][t]`, and the objective value. -/
structure OracleM where
  status : SolverStatus
  u : List (List Int)
  p : List (List ℚ)
  v : List (List Int)
  w : List (List Int)
  objective : ℚ

/-- Solution extraction of `SinglePeriodOptimizer.optimize`
(single_period_optimizer.py lines 120–140): one-period rows
`[[int(value(u_i))]]`, `[[float(value(p_i))]]`, the objective as
`total_cost`, `is_optimal` iff the status string is `Optimal`, and the
metadata entries of line 134. -/
def extractSingle (o : OracleS) (units : List Unit) (D : ℚ) : Solution :=
  let n := units.length
  { status := (List.range n).map (fun i => [o.u.getD i 0])
    power := (List.range n).map (fun i => [o.p.getD i 0])
    total_cost := o.objective
    is_optimal := o.status = .Optimal
    solve_time := 0
    metadata :=
      [(("solver_status"), MetaVal.str o.status.text),
       (("num_units"), MetaVal.num n),
       (("demand"), MetaVal.num D),
       (("units_on"), MetaVal.num ((((List.range n).map
          (fun i => o.u.getD i 0)).sum : Int) : ℚ))] }

/-- Method `SinglePeriodOptimizer.optimize` (lines 69–145): validate the inputs,
read `demand.get_demand(0)`, build and solve (the oracle), extract the
Solution, audit it unconditionally, and return it.  Auditor violations are
surfaced as `ConstraintViolation` values of the spec taxonomy; this embedding
widens the validator error to `UCError` via `Violation`. -/
inductive OptError where
  | input : UCError → OptError
  | constraintViolation : Violation → OptError
  deriving DecidableEq

/-- The single-period `optimize`. -/
def optimizeSingle (tol : ℚ) (o : OracleS) (units : List Unit) (d : Demand) :
    Except OptError Solution := do
  let _ ← (validateSingle tol units d).mapError OptError.input
  let D ← (d.get_demand 0).mapError OptError.input
  let sol := extractSingle o units D
  let _ ← (validate_solution sol units d).mapError OptError.constraintViolation
  .ok sol

/-- Solution extraction of `MultiPeriodOptimizer.optimize` (lines 229–258):
`n × T` tables read off the oracle, the objective as `total_cost`,
`is_optimal` iff the status string is `Optimal`, and the metadata entries of
lines 248–257 (including `total_startups = Σ v`, `total_shutdowns = Σ w`,
`avg_units_on = Σ status / T`). -/
def extractMulti (o : OracleM) (units : List Unit) (d : Demand) : Solution :=
  let n := units.length
  let T := d.get_periods
  let statusTab := (List.range n).map (fun i =>
    (List.range T).map (fun t => tblI o.u i t))
  { status := statusTab
    power := (List.range n).map (fun i =>
      (List.range T).map (fun t => tblQ o.p i t))
    total_cost := o.objective
    is_optimal := o.status = .Optimal
    solve_time := 0
    metadata :=
      [(("solver_status"), MetaVal.str o.status.text),
       (("num_units"), MetaVal.num n),
       (("num_periods"), MetaVal.num T),
       (("total_demand"), MetaVal.num d.get_total_demand),
       (("peak_demand"), MetaVal.num d.get_peak_demand),
       (("total_startups"), MetaVal.num ((((List.range n).map (fun i =>
          ((List.range T).map (fun t => tblI o.v i t)).sum)).sum : Int) : ℚ)),
       (("total_shutdowns"), MetaVal.num ((((List.range n).map (fun i =>
          ((List.range T).map (fun t => tblI o.w i t)).sum)).sum : Int) : ℚ)),
       (("avg_units_on"), MetaVal.num
          (((((statusTab.map List.sum).sum : Int) : ℚ)) / (T : ℚ)))] }

/-- Method `MultiPeriodOptimizer.optimize` (lines 82–263): validate the inputs,
build and solve (the oracle), extract the Solution, audit it
unconditionally, and return it. -/
def optimizeMulti (tol : ℚ) (o : OracleM) (units : List Unit) (d : Demand) :
    Except OptError Solution := do
  let _ ← (validateMulti tol units d).mapError OptError.input
  let sol := extractMulti o units d
  let _ ← (validate_solution sol units d).mapError OptError.constraintViolation
  .ok sol

/-! ## Concrete instances used by counterexamples and witnesses -/

/-- A generic valid unit: `min_power 0`, `max_power 100`, all costs 0 except
`fuel_cost 1`, default temporal parameters. -/
def sUnit : Unit :=
  ⟨1, ("g1"), 0, 100, 0, 0, 1, 1, 1, none, none, 0, 0⟩

/-- One-period demand of 50 MW. -/
def dOne : Demand := ⟨[50]⟩

/-- Two-period demand profile `[50, 0]`. -/
def dTwo : Demand := ⟨[50, 0]⟩

/-- A single-period solver outcome reporting infeasibility with all
variables at zero. -/
def oracleInfS : OracleS := ⟨.Infeasible, [0], [0], 0⟩

/-- A multi-period solver outcome reporting infeasibility with all
variables at zero. -/
def oracleInfM : OracleM :=
  ⟨.Infeasible, [[0, 0]], [[0, 0]], [[0, 0]], [[0, 0]], 0⟩

/-- The unit exhibiting the model/auditor inconsistency: committed before the
horizon (`initial_status 1`, `initial_power 10`) with `min_uptime 3` and
`min_power 5`. -/
def bugUnit : Unit :=
  ⟨1, ("g1"), 5, 100, 0, 0, 1, 3, 1, none, none, 1, 10⟩

/-- Demand profile `[10, 0]`: the zero-demand second period forces the unit
off at `t = 1` (its `min_power` is positive). -/
def bugDemand : Demand := ⟨[10, 0]⟩

/-- The (unique feasible, hence optimal) multi-period solver outcome for
`bugUnit` under `bugDemand`. -/
def bugOracle : OracleM :=
  ⟨.Optimal, [[1, 0]], [[10, 0]], [[0, 0]], [[0, 1]], 10⟩

/-- The Solution the multi-period optimizer extracts from `bugOracle`. -/
def bugSol : Solution := extractMulti bugOracle [bugUnit] bugDemand

/-! # Theorems -/

/-- Claim C3, as stated, is false: the source validates `startup_cost` and
`shutdown_cost` but never `fuel_cost` (unit.py line 49 checks only the two
event costs), so a unit with `fuel_cost = -1` and every other attribute valid
is constructed successfully — no `InvalidUnitError` is raised. -/
theorem claim_C3_counterexample :
    mkUnit 1 ("g1") 0 10 0 0 (-1) 1 1 none none 0 0 =
      .ok ⟨1, ("g1"), 0, 10, 0, 0, -1, 1, 1, none, none, 0, 0⟩ ∧
    (-1 : ℚ) < 0 := by
  constructor
  · norm_num [mkUnit]
  · norm_num

/-- Claim C3 (amended): construction succeeds iff `min_power ≥ 0`,
`max_power ≥ min_power`, `startup_cost ≥ 0`, `shutdown_cost ≥ 0` and
`min_uptime, min_downtime ≥ 1` — `fuel_cost` is not validated; any violation
raises `InvalidUnitError` and on success the produced value carries exactly
the given fields. -/
theorem claim_C3_amended (id : Int) (nm : String) (minP maxP su sd fc : ℚ)
    (mu md : Int) (ru rd : Option ℚ) (st : Int) (ip : ℚ) :
    ((mkUnit id nm minP maxP su sd fc mu md ru rd st ip).isOk = true ↔
      0 ≤ minP ∧ minP ≤ maxP ∧ 0 ≤ su ∧ 0 ≤ sd ∧ 1 ≤ mu ∧ 1 ≤ md) ∧
    (∀ e, mkUnit id nm minP maxP su sd fc mu md ru rd st ip = .error e →
      e = UCError.invalidUnit) ∧
    (∀ u, mkUnit id nm minP maxP su sd fc mu md ru rd st ip = .ok u →
      u = ⟨id, nm, minP, maxP, su, sd, fc, mu, md, ru, rd, st, ip⟩) := by
  refine ⟨?_, ?_, ?_⟩
  · unfold mkUnit
    split_ifs with h1 h2 h3 h4
    all_goals
      simp only [Except.isOk, Except.toBool, false_iff, true_iff,
        Bool.false_eq_true, iff_false, iff_true]
    · rintro ⟨c1, -, -, -, -, -⟩; linarith
    · rintro ⟨-, c2, -, -, -, -⟩; linarith
    · rintro ⟨-, -, c3, c4, -, -⟩
      rcases h3 with h | h <;> linarith
    · rintro ⟨-, -, -, -, c5, c6⟩
      rcases h4 with h | h <;> omega
    · push_neg at h1 h2 h3 h4
      exact ⟨h1, h2, h3.1, h3.2, by omega, by omega⟩
  · intro e he
    unfold mkUnit at he
    split_ifs at he <;> simp_all
  · intro u hu
    unfold mkUnit at hu
    split_ifs at hu
    simp_all

/-- Witness for C3: a fully valid parameter set constructs successfully,
via the amended theorem. -/
theorem claim_C3_witness :
    (mkUnit 1 ("g1") 0 100 0 0 1 1 1 none none 0 0).isOk = true :=
  (claim_C3_amended 1 ("g1") 0 100 0 0 1 1 1 none none 0 0).1.mpr
    (by norm_num)

/-- Reduction of the `Except` monad bind on a success value. -/
@[simp] theorem bind_ok_red {ε : Type u} {α : Type v} {β : Type v} (a : α)
    (f : α → Except ε β) : (Except.ok a : Except ε α) >>= f = f a := rfl

/-- Reduction of the `Except` monad bind on an error value. -/
@[simp] theorem bind_err_red {ε : Type u} {α : Type v} {β : Type v} (e : ε)
    (f : α → Except ε β) :
    (Except.error e : Except ε α) >>= f = .error e := rfl

/-- Reduction of `Except.mapError` on a success value. -/
@[simp] theorem mapError_ok_red {ε : Type u} {ε2 : Type w} {α : Type v}
    (a : α) (f : ε → ε2) :
    (Except.ok a : Except ε α).mapError f = .ok a := rfl

/-- Reduction of `Except.mapError` on an error value. -/
@[simp] theorem mapError_err_red {ε : Type u} {ε2 : Type w} {α : Type v}
    (e : ε) (f : ε → ε2) :
    (Except.error e : Except ε α).mapError f = .error (f e) := rfl

/-- Membership in the shared iteration order of the capacity and ramp
checks. -/
theorem mem_idxPairs {n T : Nat} {p : Nat × Nat} :
    p ∈ idxPairs n T ↔ p.1 < n ∧ p.2 < T := by
  unfold idxPairs
  simp only [List.mem_flatMap, List.mem_map, List.mem_range]
  constructor
  · rintro ⟨i, hi, t, ht, rfl⟩
    exact ⟨hi, ht⟩
  · rintro ⟨h1, h2⟩
    exact ⟨p.1, h1, p.2, h2, rfl⟩

/-- The power-balance check either passes or raises a balance violation. -/
theorem vpb_cases (s : Solution) (d : Demand) :
    validate_power_balance s d = .ok true ∨
      ∃ e, validate_power_balance s d = .error e ∧ e.kind = .balance := by
  unfold validate_power_balance
  cases h : (List.range d.get_periods).find? (fun t => balViol s d t) <;> simp

/-- The capacity check either passes or raises a capacity violation. -/
theorem vcl_cases (s : Solution) (units : List Unit) :
    validate_capacity_limits s units = .ok true ∨
      ∃ e, validate_capacity_limits s units = .error e ∧ e.kind = .capacity := by
  unfold validate_capacity_limits
  cases h : (idxPairs units.length s.get_num_periods).find?
      (fun it => capViol (units.getD it.1 dUnit)
        (s.get_unit_status it.1 it.2) (s.get_unit_power it.1 it.2)) <;> simp

/-- The ramp check either passes or raises a ramp violation. -/
theorem vrr_cases (s : Solution) (units : List Unit) :
    validate_ramp_rates s units = .ok true ∨
      ∃ e, validate_ramp_rates s units = .error e ∧ e.kind = .ramp := by
  unfold validate_ramp_rates
  split
  · exact Or.inl rfl
  · cases h : (idxPairs units.length s.get_num_periods).find?
        (fun it => rampUpViol (units.getD it.1 dUnit) s it.1 it.2 ∨
          rampDownViol (units.getD it.1 dUnit) s it.1 it.2) <;> simp

/-- The per-unit minimum up/down walk either passes or raises a min-up/down
violation. -/
theorem mudWalk_cases (u : Unit) :
    ∀ (l : List Int) (prev a b : Int) (t : Nat),
      mudWalk u l prev a b t = .ok true ∨
        ∃ e, mudWalk u l prev a b t = .error e ∧ e.kind = .minUpDown := by
  intro l
  induction l with
  | nil => intro prev a b t; exact Or.inl rfl
  | cons c rest ih =>
    intro prev a b t
    unfold mudWalk
    split_ifs <;> first
      | exact Or.inr ⟨_, rfl, rfl⟩
      | exact ih _ _ _ _

/-- The minimum up/down check either passes or raises a min-up/down
violation. -/
theorem vmud_cases (s : Solution) (units : List Unit) :
    validate_min_uptime_downtime s units = .ok true ∨
      ∃ e, validate_min_uptime_downtime s units = .error e ∧
        e.kind = .minUpDown := by
  unfold validate_min_uptime_downtime
  generalize units.enum = l
  induction l with
  | nil => exact Or.inl rfl
  | cons iu rest ih =>
    obtain ⟨i, u⟩ := iu
    unfold validate_min_uptime_downtime.go
    rcases mudWalk_cases u ((List.range s.get_num_periods).map
        (fun t => s.get_unit_status i t)) u.initial_status
        (if u.initial_status = 0 then 0 else 1)
        (if u.initial_status = 1 then 0 else 1) 0 with h | ⟨e, he, hk⟩
    · rcases ih with h2 | ⟨e, he2, hk2⟩
      · left
        simpa [mudWalkUnit, h] using h2
      · right
        exact ⟨e, by simpa [mudWalkUnit, h] using he2, hk2⟩
    · right
      refine ⟨e, ?_, hk⟩
      show Except.bind (mudWalkUnit u s i) _ = Except.error e
      rw [mudWalkUnit, he]
      rfl

/-- Claim C9: for a constructed Demand (non-empty, values non-negative) and
any integer period `t`, `get_demand` returns `values[t]` exactly when
`0 ≤ t < T` and raises `IndexError` otherwise — it never returns a value for
an out-of-range period. -/
theorem claim_C9 (vals : List ℚ) (d : Demand) (h : mkDemand vals = .ok d)
    (t : Int) :
    (0 ≤ t ∧ t < (d.get_periods : Int) →
      d.get_demand t = .ok (d.values.getD t.toNat 0)) ∧
    (¬(0 ≤ t ∧ t < (d.get_periods : Int)) →
      d.get_demand t = .error UCError.indexError) ∧
    d.values ≠ [] ∧ (∀ x ∈ d.values, 0 ≤ x) := by
  unfold mkDemand at h
  split_ifs at h with h1 h2
  cases h
  refine ⟨fun ht => ?_, fun ht => ?_, ?_, ?_⟩
  · unfold Demand.get_demand
    rw [if_pos]
    exact ht
  · unfold Demand.get_demand
    rw [if_neg]
    exact ht
  · simpa [List.isEmpty_iff] using h1
  · intro x hx
    by_contra hneg
    exact h2 (List.any_eq_true.mpr ⟨x, hx, by simpa using lt_of_not_le hneg⟩)

/-- Witness for C9: both branches exercised on the one-period demand `[50]`. -/
theorem claim_C9_witness :
    Demand.get_demand ⟨[50]⟩ 0 = .ok ((List.getD [(50 : ℚ)] 0 0)) ∧
    Demand.get_demand ⟨[50]⟩ 1 = .error UCError.indexError := by
  have h : mkDemand [(50 : ℚ)] = .ok ⟨[50]⟩ := by norm_num [mkDemand]
  exact ⟨(claim_C9 [50] ⟨[50]⟩ h 0).1 (by constructor <;> norm_num [Demand.get_periods]),
    (claim_C9 [50] ⟨[50]⟩ h 1).2.1 (by norm_num [Demand.get_periods])⟩

/-- Claim C10: `calculate_production_cost` returns `power * fuel_cost`
exactly when `can_produce` holds, i.e. when `min_power ≤ power ≤ max_power`,
and raises otherwise; for a unit with the construction invariant
`0 ≤ min_power`, power 0 is accepted iff `min_power = 0` (and the
vacuously-true `0 ≤ max_power`). -/
theorem claim_C10 (u : Unit) (pw : ℚ) :
    (u.can_produce pw = true ↔ u.min_power ≤ pw ∧ pw ≤ u.max_power) ∧
    (u.can_produce pw = true →
      u.calculate_production_cost pw = .ok (pw * u.fuel_cost)) ∧
    (u.can_produce pw = false →
      u.calculate_production_cost pw = .error UCError.valueError) ∧
    (0 ≤ u.min_power →
      ((u.calculate_production_cost 0).isOk = true ↔
        u.min_power = 0 ∧ 0 ≤ u.max_power)) := by
  refine ⟨by simp [Unit.can_produce], fun hc => ?_, fun hc => ?_, fun h0 => ?_⟩
  · unfold Unit.calculate_production_cost
    rw [if_pos hc]
  · unfold Unit.calculate_production_cost
    rw [if_neg]
    simp [hc]
  · unfold Unit.calculate_production_cost
    by_cases hc : u.can_produce 0 = true
    · rw [if_pos hc]
      have := (by simpa [Unit.can_produce] using hc :
        u.min_power ≤ 0 ∧ (0 : ℚ) ≤ u.max_power)
      simp only [Except.isOk, Except.toBool, true_iff]
      exact ⟨le_antisymm this.1 h0, this.2⟩
    · rw [if_neg hc]
      simp only [Except.isOk, Except.toBool, Bool.false_eq_true, false_iff]
      rintro ⟨hmin, hmax⟩
      exact hc (by simp [Unit.can_produce, hmin.le, hmax])

/-- Witness for C10: the sample unit (capacity `[0, 100]`) accepts 50 MW at
fuel cost 1 and accepts 0 MW since its `min_power` is zero. -/
theorem claim_C10_witness :
    sUnit.calculate_production_cost 50 = .ok (50 * sUnit.fuel_cost) ∧
    (sUnit.calculate_production_cost 0).isOk = true := by
  refine ⟨(claim_C10 sUnit 50).2.1 ?_, ((claim_C10 sUnit 0).2.2.2 ?_).mpr ?_⟩
  · norm_num [Unit.can_produce, sUnit]
  · norm_num [sUnit]
  · norm_num [sUnit]

/-- Semantics of the per-pair capacity test: no violation exactly when a
committed unit is within `[min_power - eps, max_power + eps]` and an
uncommitted unit produces at most `eps`. -/
theorem capViol_false_iff (u : Unit) (st : Int) (pw : ℚ) :
    capViol u st pw = false ↔
      ((st = 1 → u.min_power - eps ≤ pw ∧ pw ≤ u.max_power + eps) ∧
       (st = 0 → pw ≤ eps)) := by
  unfold capViol
  split_ifs with h1 h2
  · subst h1
    simp [not_or, not_lt]
  · subst h2
    simp [not_lt]
  · simp [h1, h2]

/-- The capacity check passes exactly when no in-range pair violates the
per-pair capacity test. -/
theorem vcl_ok_iff (s : Solution) (units : List Unit) :
    validate_capacity_limits s units = .ok true ↔
      ∀ i, i < units.length → ∀ t, t < s.get_num_periods →
        capViol (units.getD i dUnit)
          (s.get_unit_status i t) (s.get_unit_power i t) = false := by
  unfold validate_capacity_limits
  cases h : (idxPairs units.length s.get_num_periods).find?
      (fun it => capViol (units.getD it.1 dUnit)
        (s.get_unit_status it.1 it.2) (s.get_unit_power it.1 it.2)) with
  | none =>
    simp only [true_iff]
    intro i hi t ht
    have := List.find?_eq_none.mp h (i, t) (mem_idxPairs.mpr ⟨hi, ht⟩)
    simpa using this
  | some it =>
    simp only [reduceCtorEq, false_iff, not_forall]
    have hv := List.find?_some h
    have hm := mem_idxPairs.mp (List.mem_of_find?_eq_some h)
    exact ⟨it.1, hm.1, it.2, hm.2, by simpa using hv⟩

/-- Claim C7: the auditor runs power balance, capacity, ramps and minimum
up/down in that fixed order, raising the first violated check's
`ConstraintViolation` (whose kind names that check) and returning true iff
all four checks pass; the ramp check returns immediately when the solution
has at most one period; the capacity check demands `power ≤ eps` for
uncommitted units and `min_power - eps ≤ power ≤ max_power + eps` for
committed ones; the tolerance is 1e-6 throughout. -/
theorem claim_C7 (s : Solution) (units : List Unit) (d : Demand) :
    (validate_solution s units d = .ok true ↔
      validate_power_balance s d = .ok true ∧
      validate_capacity_limits s units = .ok true ∧
      validate_ramp_rates s units = .ok true ∧
      validate_min_uptime_downtime s units = .ok true) ∧
    (∀ e, validate_solution s units d = .error e →
      (validate_power_balance s d = .error e ∨
       (validate_power_balance s d = .ok true ∧
        (validate_capacity_limits s units = .error e ∨
         (validate_capacity_limits s units = .ok true ∧
          (validate_ramp_rates s units = .error e ∨
           (validate_ramp_rates s units = .ok true ∧
            validate_min_uptime_downtime s units = .error e))))))) ∧
    (∀ e, validate_power_balance s d = .error e → e.kind = .balance) ∧
    (∀ e, validate_capacity_limits s units = .error e → e.kind = .capacity) ∧
    (∀ e, validate_ramp_rates s units = .error e → e.kind = .ramp) ∧
    (∀ e, validate_min_uptime_downtime s units = .error e →
      e.kind = .minUpDown) ∧
    (s.get_num_periods ≤ 1 → validate_ramp_rates s units = .ok true) ∧
    (validate_capacity_limits s units = .ok true ↔
      ∀ i, i < units.length → ∀ t, t < s.get_num_periods →
        ((s.get_unit_status i t = 1 →
          (units.getD i dUnit).min_power - eps ≤ s.get_unit_power i t ∧
          s.get_unit_power i t ≤ (units.getD i dUnit).max_power + eps) ∧
         (s.get_unit_status i t = 0 → s.get_unit_power i t ≤ eps))) ∧
    eps = 1 / 1000000 := by
  have kbal : ∀ e, validate_power_balance s d = .error e →
      e.kind = .balance := by
    intro e he
    rcases vpb_cases s d with h | ⟨e2, he2, hk⟩
    · rw [h] at he; exact absurd he (by simp)
    · rw [he2] at he
      cases he
      exact hk
  have kcap : ∀ e, validate_capacity_limits s units = .error e →
      e.kind = .capacity := by
    intro e he
    rcases vcl_cases s units with h | ⟨e2, he2, hk⟩
    · rw [h] at he; exact absurd he (by simp)
    · rw [he2] at he
      cases he
      exact hk
  have kramp : ∀ e, validate_ramp_rates s units = .error e →
      e.kind = .ramp := by
    intro e he
    rcases vrr_cases s units with h | ⟨e2, he2, hk⟩
    · rw [h] at he; exact absurd he (by simp)
    · rw [he2] at he
      cases he
      exact hk
  have kmud : ∀ e, validate_min_uptime_downtime s units = .error e →
      e.kind = .minUpDown := by
    intro e he
    rcases vmud_cases s units with h | ⟨e2, he2, hk⟩
    · rw [h] at he; exact absurd he (by simp)
    · rw [he2] at he
      cases he
      exact hk
  refine ⟨?_, ?_, kbal, kcap, kramp, kmud, ?_, ?_, rfl⟩
  · rcases vpb_cases s d with h1 | ⟨e1, h1, -⟩ <;>
      rcases vcl_cases s units with h2 | ⟨e2, h2, -⟩ <;>
      rcases vrr_cases s units with h3 | ⟨e3, h3, -⟩ <;>
      rcases vmud_cases s units with h4 | ⟨e4, h4, -⟩ <;>
      simp [validate_solution, h1, h2, h3, h4]
  · intro e he
    rcases vpb_cases s d with h1 | ⟨e1, h1, -⟩
    · rcases vcl_cases s units with h2 | ⟨e2, h2, -⟩
      · rcases vrr_cases s units with h3 | ⟨e3, h3, -⟩
        · rcases vmud_cases s units with h4 | ⟨e4, h4, -⟩
          · rw [validate_solution] at he
            simp [h1, h2, h3, h4] at he
          · rw [validate_solution] at he
            simp only [h1, h2, h3, h4, bind_ok_red, bind_err_red] at he
            cases he
            exact Or.inr ⟨h1, Or.inr ⟨h2, Or.inr ⟨h3, h4⟩⟩⟩
        · rw [validate_solution] at he
          simp only [h1, h2, h3, bind_ok_red, bind_err_red] at he
          cases he
          exact Or.inr ⟨h1, Or.inr ⟨h2, Or.inl h3⟩⟩
      · rw [validate_solution] at he
        simp only [h1, h2, bind_ok_red, bind_err_red] at he
        cases he
        exact Or.inr ⟨h1, Or.inl h2⟩
    · rw [validate_solution] at he
      simp only [h1, bind_err_red] at he
      cases he
      exact Or.inl h1
  · intro hT
    unfold validate_ramp_rates
    rw [if_pos hT]
  · rw [vcl_ok_iff]
    constructor
    · intro h i hi t ht
      exact (capViol_false_iff _ _ _).mp (h i hi t ht)
    · intro h i hi t ht
      exact (capViol_false_iff _ _ _).mpr (h i hi t ht)

/-- Witness for C7 at a concrete one-period solution: the ramp check is
skipped and the tolerance is 1e-6. -/
theorem claim_C7_witness :
    validate_ramp_rates ⟨[[1]], [[50]], 0, true, 0, []⟩ [sUnit] = .ok true ∧
    eps = 1 / 1000000 := by
  have h := claim_C7 ⟨[[1]], [[50]], 0, true, 0, []⟩ [sUnit] dOne
  exact ⟨h.2.2.2.2.2.2.1 (by norm_num [Solution.get_num_periods]),
    h.2.2.2.2.2.2.2.2⟩

/-- A fold of `max` dominates its seed and every list element. -/
theorem le_foldl_max (l : List ℚ) (a : ℚ) :
    a ≤ l.foldl max a ∧ ∀ x ∈ l, x ≤ l.foldl max a := by
  induction l generalizing a with
  | nil => simp
  | cons b rest ih =>
    obtain ⟨h1, h2⟩ := ih (max a b)
    refine ⟨le_trans (le_max_left a b) h1, ?_⟩
    intro x hx
    rcases List.mem_cons.mp hx with rfl | hx2
    · exact le_trans (le_max_right a x) h1
    · exact h2 x hx2

/-- A fold of `max` is the seed or one of the list elements. -/
theorem foldl_max_mem (l : List ℚ) (a : ℚ) :
    l.foldl max a = a ∨ l.foldl max a ∈ l := by
  induction l generalizing a with
  | nil => exact Or.inl rfl
  | cons b rest ih =>
    rcases ih (max a b) with h | h
    · rcases le_total a b with hab | hab
      · right
        rw [List.foldl_cons, h, max_eq_right hab]
        exact List.mem_cons_self b rest
      · left
        rw [List.foldl_cons, h, max_eq_left hab]
    · right
      exact List.mem_cons_of_mem b h

/-- Function `get_peak_demand` computes the maximum of a non-empty demand profile:
it is attained and dominates every value. -/
theorem peak_spec (d : Demand) (h : d.values ≠ []) :
    d.get_peak_demand ∈ d.values ∧ ∀ x ∈ d.values, x ≤ d.get_peak_demand := by
  unfold Demand.get_peak_demand
  cases hv : d.values with
  | nil => exact absurd hv h
  | cons v rest =>
    constructor
    · rcases foldl_max_mem (v :: rest) (List.headD (v :: rest) 0) with h2 | h2
      · rw [h2]
        exact List.mem_cons_self v rest
      · exact h2
    · exact (le_foldl_max (v :: rest) (List.headD (v :: rest) 0)).2

/-- Claim C4: `validate_inputs` of the single-period optimizer raises
`InputShapeError` exactly when the unit list is empty or `T ≠ 1` and
`InfeasibleCapacityError` exactly when total capacity is below
`demand[0] - tol`, returning true otherwise; the multi-period analogue uses
`T < 2` and the peak demand; and when validation raises, `optimize` raises
the same error for every solver oracle, i.e. no solver work precedes the
checks.  The final conjunct shows `get_peak_demand` is the maximum
`max_t demand[t]`. -/
theorem claim_C4 (tol : ℚ) (units : List Unit) (d : Demand) :
    (validateSingle tol units d = .error .inputShape ↔
      units = [] ∨ d.get_periods ≠ 1) ∧
    (validateSingle tol units d = .error .infeasibleCapacity ↔
      units ≠ [] ∧ d.get_periods = 1 ∧
        totalCapacity units < d.values.headD 0 - tol) ∧
    (validateSingle tol units d = .ok true ↔
      units ≠ [] ∧ d.get_periods = 1 ∧
        ¬ totalCapacity units < d.values.headD 0 - tol) ∧
    (validateMulti tol units d = .error .inputShape ↔
      units = [] ∨ d.get_periods < 2) ∧
    (validateMulti tol units d = .error .infeasibleCapacity ↔
      units ≠ [] ∧ 2 ≤ d.get_periods ∧
        totalCapacity units < d.get_peak_demand - tol) ∧
    (validateMulti tol units d = .ok true ↔
      units ≠ [] ∧ 2 ≤ d.get_periods ∧
        ¬ totalCapacity units < d.get_peak_demand - tol) ∧
    (∀ (o : OracleS) e, validateSingle tol units d = .error e →
      optimizeSingle tol o units d = .error (.input e)) ∧
    (∀ (o : OracleM) e, validateMulti tol units d = .error e →
      optimizeMulti tol o units d = .error (.input e)) ∧
    (d.values ≠ [] → d.get_peak_demand ∈ d.values ∧
      ∀ x ∈ d.values, x ≤ d.get_peak_demand) := by
  have hhead : d.values.getD 0 0 = d.values.headD 0 := by
    cases d.values <;> rfl
  have hgd : d.get_periods = 1 → d.get_demand 0 = .ok (d.values.headD 0) := by
    intro h1
    have hlen : d.values.length = 1 := h1
    unfold Demand.get_demand
    rw [if_pos (by rw [hlen]; exact ⟨le_refl 0, by norm_num⟩)]
    rw [show (0 : Int).toNat = 0 from rfl, hhead]
  have hsingle : (validateSingle tol units d = .error .inputShape ↔
      units = [] ∨ d.get_periods ≠ 1) ∧
      (validateSingle tol units d = .error .infeasibleCapacity ↔
        units ≠ [] ∧ d.get_periods = 1 ∧
          totalCapacity units < d.values.headD 0 - tol) ∧
      (validateSingle tol units d = .ok true ↔
        units ≠ [] ∧ d.get_periods = 1 ∧
          ¬ totalCapacity units < d.values.headD 0 - tol) := by
    unfold validateSingle
    by_cases hU : units.isEmpty
    · have hU2 : units = [] := List.isEmpty_iff.mp hU
      simp [hU, hU2]
    · have hU2 : units ≠ [] := by simpa [List.isEmpty_iff] using hU
      rw [if_neg hU]
      by_cases hT : d.get_periods = 1
      · rw [if_neg (by simp [hT])]
        simp only [hgd hT, bind_ok_red]
        by_cases hC : totalCapacity units < d.values.headD 0 - tol
        · rw [if_pos hC]
          exact ⟨by simp [hU2, hT], iff_of_true rfl ⟨hU2, hT, hC⟩,
            iff_of_false (by simp) (fun h => h.2.2 hC)⟩
        · rw [if_neg hC]
          exact ⟨by simp [hU2, hT], iff_of_false (by simp) (fun h => hC h.2.2),
            iff_of_true rfl ⟨hU2, hT, hC⟩⟩
      · rw [if_pos hT]
        simp [hU2, hT]
  have hmulti : (validateMulti tol units d = .error .inputShape ↔
      units = [] ∨ d.get_periods < 2) ∧
      (validateMulti tol units d = .error .infeasibleCapacity ↔
        units ≠ [] ∧ 2 ≤ d.get_periods ∧
          totalCapacity units < d.get_peak_demand - tol) ∧
      (validateMulti tol units d = .ok true ↔
        units ≠ [] ∧ 2 ≤ d.get_periods ∧
          ¬ totalCapacity units < d.get_peak_demand - tol) := by
    unfold validateMulti
    by_cases hU : units.isEmpty
    · have hU2 : units = [] := List.isEmpty_iff.mp hU
      simp [hU, hU2]
    · have hU2 : units ≠ [] := by simpa [List.isEmpty_iff] using hU
      rw [if_neg hU]
      by_cases hT : d.get_periods < 2
      · rw [if_pos hT]
        refine ⟨iff_of_true rfl (Or.inr hT), ?_, ?_⟩
        · exact iff_of_false (by simp) (by rintro ⟨-, h2, -⟩; omega)
        · exact iff_of_false (by simp) (by rintro ⟨-, h2, -⟩; omega)
      · rw [if_neg hT]
        by_cases hC : totalCapacity units < d.get_peak_demand - tol
        · rw [if_pos hC]
          refine ⟨?_, iff_of_true rfl ⟨hU2, by omega, hC⟩, ?_⟩
          · exact iff_of_false (by simp)
              (by rintro (h | h); exacts [hU2 h, by omega])
          · exact iff_of_false (by simp) (by rintro ⟨-, -, h⟩; exact h hC)
        · rw [if_neg hC]
          refine ⟨?_, iff_of_false (by simp) (by rintro ⟨-, -, h⟩; exact hC h),
            iff_of_true rfl ⟨hU2, by omega, hC⟩⟩
          exact iff_of_false (by simp)
            (by rintro (h | h); exacts [hU2 h, by omega])
  refine ⟨hsingle.1, hsingle.2.1, hsingle.2.2, hmulti.1, hmulti.2.1,
    hmulti.2.2, ?_, ?_, peak_spec d⟩
  · intro o e he
    unfold optimizeSingle
    simp [he]
  · intro o e he
    unfold optimizeMulti
    simp [he]

/-- Witness for C4: on the sample unit and one-period demand, the
single-period validator accepts and the multi-period validator raises the
shape error, which `optimize` then surfaces without consulting the solver. -/
theorem claim_C4_witness :
    validateSingle eps [sUnit] dOne = .ok true ∧
    validateMulti eps [sUnit] dOne = .error .inputShape ∧
    optimizeMulti eps oracleInfM [sUnit] dOne =
      .error (.input .inputShape) := by
  have h := claim_C4 eps [sUnit] dOne
  have h1 : validateSingle eps [sUnit] dOne = .ok true := by
    refine h.2.2.1.mpr ⟨by simp, by norm_num [dOne, Demand.get_periods], ?_⟩
    norm_num [totalCapacity, sUnit, dOne, eps]
  have h2 : validateMulti eps [sUnit] dOne = .error .inputShape := by
    refine h.2.2.2.1.mpr (Or.inr ?_)
    norm_num [dOne, Demand.get_periods]
  exact ⟨h1, h2, h.2.2.2.2.2.2.2.1 oracleInfM .inputShape h2⟩

/-- Claim C5: the multi-period builder emits the minimum-uptime constraint
for `(i, t)` — window `τ = t .. t + min_uptime - 1`, requirement
`min_uptime · v[i,t]` — exactly when `t + min_uptime ≤ T`, and the
minimum-downtime constraint exactly when `t + min_downtime ≤ T`; every
emitted window is the full, untruncated run of `min_uptime`
(resp. `min_downtime`) periods and lies inside the horizon. -/
theorem claim_C5 (units : List Unit) (T : Nat) :
    (∀ i t win req, (⟨i, t, win, req⟩ : MUC) ∈ minUptimeConstraints units T ↔
      i < units.length ∧ t < T ∧
        (t : Int) + (units.getD i dUnit).min_uptime ≤ (T : Int) ∧
        req = (units.getD i dUnit).min_uptime ∧
        win = (List.range (units.getD i dUnit).min_uptime.toNat).map
          (fun k => t + k)) ∧
    (∀ i t win req, (⟨i, t, win, req⟩ : MUC) ∈ minDowntimeConstraints units T ↔
      i < units.length ∧ t < T ∧
        (t : Int) + (units.getD i dUnit).min_downtime ≤ (T : Int) ∧
        req = (units.getD i dUnit).min_downtime ∧
        win = (List.range (units.getD i dUnit).min_downtime.toNat).map
          (fun k => t + k)) ∧
    (∀ c ∈ minUptimeConstraints units T,
      (c.window.length : Int) = max (units.getD c.i dUnit).min_uptime 0 ∧
      ∀ τ ∈ c.window, τ < T) ∧
    (∀ c ∈ minDowntimeConstraints units T,
      (c.window.length : Int) = max (units.getD c.i dUnit).min_downtime 0 ∧
      ∀ τ ∈ c.window, τ < T) := by
  have hup : ∀ i t win req,
      (⟨i, t, win, req⟩ : MUC) ∈ minUptimeConstraints units T ↔
      i < units.length ∧ t < T ∧
        (t : Int) + (units.getD i dUnit).min_uptime ≤ (T : Int) ∧
        req = (units.getD i dUnit).min_uptime ∧
        win = (List.range (units.getD i dUnit).min_uptime.toNat).map
          (fun k => t + k) := by
    intro i t win req
    constructor
    · intro h
      rw [minUptimeConstraints, List.mem_flatMap] at h
      obtain ⟨i2, hi2, h2⟩ := h
      rw [List.mem_filterMap] at h2
      obtain ⟨t2, ht2, h3⟩ := h2
      rw [List.mem_range] at hi2
      rw [List.mem_range] at ht2
      by_cases hcond :
          (t2 : Int) + (units.getD i2 dUnit).min_uptime ≤ (T : Int)
      · rw [if_pos hcond] at h3
        simp only [Option.some.injEq, MUC.mk.injEq] at h3
        obtain ⟨rfl, rfl, hw, hr⟩ := h3
        exact ⟨hi2, ht2, hcond, hr.symm, hw.symm⟩
      · rw [if_neg hcond] at h3
        exact absurd h3 (by simp)
    · rintro ⟨hi, ht, hcond, rfl, rfl⟩
      rw [minUptimeConstraints, List.mem_flatMap]
      exact ⟨i, List.mem_range.mpr hi, List.mem_filterMap.mpr
        ⟨t, List.mem_range.mpr ht, by rw [if_pos hcond]⟩⟩
  have hdown : ∀ i t win req,
      (⟨i, t, win, req⟩ : MUC) ∈ minDowntimeConstraints units T ↔
      i < units.length ∧ t < T ∧
        (t : Int) + (units.getD i dUnit).min_downtime ≤ (T : Int) ∧
        req = (units.getD i dUnit).min_downtime ∧
        win = (List.range (units.getD i dUnit).min_downtime.toNat).map
          (fun k => t + k) := by
    intro i t win req
    constructor
    · intro h
      rw [minDowntimeConstraints, List.mem_flatMap] at h
      obtain ⟨i2, hi2, h2⟩ := h
      rw [List.mem_filterMap] at h2
      obtain ⟨t2, ht2, h3⟩ := h2
      rw [List.mem_range] at hi2
      rw [List.mem_range] at ht2
      by_cases hcond :
          (t2 : Int) + (units.getD i2 dUnit).min_downtime ≤ (T : Int)
      · rw [if_pos hcond] at h3
        simp only [Option.some.injEq, MUC.mk.injEq] at h3
        obtain ⟨rfl, rfl, hw, hr⟩ := h3
        exact ⟨hi2, ht2, hcond, hr.symm, hw.symm⟩
      · rw [if_neg hcond] at h3
        exact absurd h3 (by simp)
    · rintro ⟨hi, ht, hcond, rfl, rfl⟩
      rw [minDowntimeConstraints, List.mem_flatMap]
      exact ⟨i, List.mem_range.mpr hi, List.mem_filterMap.mpr
        ⟨t, List.mem_range.mpr ht, by rw [if_pos hcond]⟩⟩
  refine ⟨hup, hdown, ?_, ?_⟩
  · rintro ⟨i, t, win, req⟩ hc
    obtain ⟨hi, ht, hcond, -, rfl⟩ := (hup i t win req).mp hc
    constructor
    · simp only [List.length_map, List.length_range]
      omega
    · intro τ hτ
      obtain ⟨k, hk, rfl⟩ := List.mem_map.mp hτ
      rw [List.mem_range] at hk
      omega
  · rintro ⟨i, t, win, req⟩ hc
    obtain ⟨hi, ht, hcond, -, rfl⟩ := (hdown i t win req).mp hc
    constructor
    · simp only [List.length_map, List.length_range]
      omega
    · intro τ hτ
      obtain ⟨k, hk, rfl⟩ := List.mem_map.mp hτ
      rw [List.mem_range] at hk
      omega

/-- Witness for C5 on the sample instance: for `bugUnit` (`min_uptime 3`,
`min_downtime 1`) over horizon `T = 2` no uptime constraint is emitted at
`t = 0` (the window would cross the horizon) while the downtime constraint
at `t = 0` is emitted with its full one-period window. -/
theorem claim_C5_witness :
    ((⟨0, 0, [0, 1, 2], 3⟩ : MUC) ∈
        minUptimeConstraints [bugUnit] 2 ↔ False) ∧
    ((⟨0, 0, [0], 1⟩ : MUC) ∈ minDowntimeConstraints [bugUnit] 2 ↔ True) := by
  have h := claim_C5 [bugUnit] 2
  constructor
  · rw [h.1 0 0 [0, 1, 2] 3]
    norm_num [bugUnit]
  · rw [h.2.1 0 0 [0] 1]
    norm_num [bugUnit]
    decide

/-- Claim C6: in the multi-period model, with `p[i,-1] = initial_power`,
the ramp-up constraint `p[i,t] - p[i,t-1] ≤ ramp_up_rate` is emitted for
every period `t` exactly when `ramp_up_rate` is finite, and symmetrically
for ramp-down; a side holding the unbounded sentinel gets no constraint. -/
theorem claim_C6 (units : List Unit) (T : Nat) :
    (∀ i t b, (⟨i, t, .up, b⟩ : RampC) ∈ rampConstraints units T ↔
      i < units.length ∧ t < T ∧
        (units.getD i dUnit).ramp_up_rate = some b) ∧
    (∀ i t b, (⟨i, t, .down, b⟩ : RampC) ∈ rampConstraints units T ↔
      i < units.length ∧ t < T ∧
        (units.getD i dUnit).ramp_down_rate = some b) ∧
    (∀ pTab i t b, rampSat units pTab ⟨i, t, .up, b⟩ = true ↔
      tblQ pTab i t - (if t = 0 then (units.getD i dUnit).initial_power
        else tblQ pTab i (t - 1)) ≤ b) ∧
    (∀ pTab i t b, rampSat units pTab ⟨i, t, .down, b⟩ = true ↔
      (if t = 0 then (units.getD i dUnit).initial_power
        else tblQ pTab i (t - 1)) - tblQ pTab i t ≤ b) := by
  refine ⟨?_, ?_, ?_, ?_⟩
  · intro i t b
    constructor
    · intro h
      rw [rampConstraints, List.mem_flatMap] at h
      obtain ⟨i2, hi2, h2⟩ := h
      rw [List.mem_range] at hi2
      by_cases houter : (units.getD i2 dUnit).ramp_up_rate.isSome ∨
          (units.getD i2 dUnit).ramp_down_rate.isSome
      · rw [if_pos houter, List.mem_flatMap] at h2
        obtain ⟨t2, ht2, h3⟩ := h2
        rw [List.mem_range] at ht2
        rcases List.mem_append.mp h3 with h4 | h4
        · cases hru : (units.getD i2 dUnit).ramp_up_rate with
          | none => rw [hru] at h4; exact absurd h4 (by simp)
          | some r =>
            rw [hru] at h4
            simp only [List.mem_singleton, RampC.mk.injEq] at h4
            obtain ⟨rfl, rfl, -, rfl⟩ := h4
            exact ⟨hi2, ht2, hru⟩
        · cases hrd : (units.getD i2 dUnit).ramp_down_rate with
          | none => rw [hrd] at h4; exact absurd h4 (by simp)
          | some r =>
            rw [hrd] at h4
            simp only [List.mem_singleton, RampC.mk.injEq] at h4
            obtain ⟨-, -, h5, -⟩ := h4
            exact absurd h5 (by simp)
      · rw [if_neg houter] at h2
        exact absurd h2 (by simp)
    · rintro ⟨hi, ht, hru⟩
      rw [rampConstraints, List.mem_flatMap]
      refine ⟨i, List.mem_range.mpr hi, ?_⟩
      rw [if_pos (Or.inl (by rw [hru]; rfl)), List.mem_flatMap]
      refine ⟨t, List.mem_range.mpr ht, ?_⟩
      rw [hru, List.mem_append]
      exact Or.inl (by simp)
  · intro i t b
    constructor
    · intro h
      rw [rampConstraints, List.mem_flatMap] at h
      obtain ⟨i2, hi2, h2⟩ := h
      rw [List.mem_range] at hi2
      by_cases houter : (units.getD i2 dUnit).ramp_up_rate.isSome ∨
          (units.getD i2 dUnit).ramp_down_rate.isSome
      · rw [if_pos houter, List.mem_flatMap] at h2
        obtain ⟨t2, ht2, h3⟩ := h2
        rw [List.mem_range] at ht2
        rcases List.mem_append.mp h3 with h4 | h4
        · cases hru : (units.getD i2 dUnit).ramp_up_rate with
          | none => rw [hru] at h4; exact absurd h4 (by simp)
          | some r =>
            rw [hru] at h4
            simp only [List.mem_singleton, RampC.mk.injEq] at h4
            obtain ⟨-, -, h5, -⟩ := h4
            exact absurd h5 (by simp)
        · cases hrd : (units.getD i2 dUnit).ramp_down_rate with
          | none => rw [hrd] at h4; exact absurd h4 (by simp)
          | some r =>
            rw [hrd] at h4
            simp only [List.mem_singleton, RampC.mk.injEq] at h4
            obtain ⟨rfl, rfl, -, rfl⟩ := h4
            exact ⟨hi2, ht2, hrd⟩
      · rw [if_neg houter] at h2
        exact absurd h2 (by simp)
    · rintro ⟨hi, ht, hrd⟩
      rw [rampConstraints, List.mem_flatMap]
      refine ⟨i, List.mem_range.mpr hi, ?_⟩
      rw [if_pos (Or.inr (by rw [hrd]; rfl)), List.mem_flatMap]
      refine ⟨t, List.mem_range.mpr ht, ?_⟩
      rw [hrd, List.mem_append]
      exact Or.inr (by cases (units.getD i dUnit).ramp_up_rate <;> simp)
  · intro pTab i t b
    simp [rampSat, prevPowerVar]
  · intro pTab i t b
    simp [rampSat, prevPowerVar]

/-- Witness for C6 on a concrete unit (`ramp_up_rate` 20, unbounded
`ramp_down_rate`): the up constraint is emitted at each period and no down
constraint exists at any bound. -/
theorem claim_C6_witness :
    ((⟨0, 1, .up, 20⟩ : RampC) ∈
        rampConstraints [⟨1, ("g1"), 0, 100, 0, 0, 1, 1, 1, some 20, none,
          1, 0⟩] 3 ↔ True) ∧
    ((⟨0, 1, .down, 20⟩ : RampC) ∈
        rampConstraints [⟨1, ("g1"), 0, 100, 0, 0, 1, 1, 1, some 20, none,
          1, 0⟩] 3 ↔ False) := by
  have h := claim_C6 [⟨1, ("g1"), 0, 100, 0, 0, 1, 1, 1, some 20, none,
    1, 0⟩] 3
  constructor
  · rw [h.1 0 1 20]
    norm_num
  · rw [h.2.1 0 1 20]
    norm_num
    simp

/-- Indexing with `List.getD` through a projection map, within bounds. -/
theorem getD_map_of_lt {α : Type v} (l : List Unit) (f : Unit → α) (dflt : α)
    (i : Nat) (h : i < l.length) :
    (l.map f).getD i dflt = f (l.getD i dUnit) := by
  rw [List.getD_eq_getElem?_getD, List.getD_eq_getElem?_getD,
    List.getElem?_map, List.getElem?_eq_getElem h]
  rfl

/-- Claim C8: the single-period problem handed to the solver consists
exactly of the objective `Σ_i (startup_cost_i * u_i + fuel_cost_i * p_i)`,
the balance `Σ_i p_i = demand[0]` and the per-unit capacity coupling
`min_power_i * u_i ≤ p_i ≤ max_power_i * u_i` (plus the variable
declarations `u_i` binary, `0 ≤ p_i ≤ max_power_i`); `shutdown_cost`,
`initial_status` and `initial_power` have no influence on the constructed
problem — in particular a unit already on per `initial_status` is still
charged its `startup_cost` when committed. -/
theorem claim_C8 (units : List Unit) (D : ℚ) :
    buildSingle units D = buildSingle (units.map scrubSP) D ∧
    (∀ uv pv, spObjective (buildSingle units D) uv pv =
      ((units.zip (uv.zip pv)).map (fun x =>
        x.1.startup_cost * ((x.2.1 : Int) : ℚ) +
          x.1.fuel_cost * x.2.2)).sum) ∧
    (∀ uv pv, spFeasible (buildSingle units D) uv pv ↔
      ((∀ i, i < units.length →
          (uv.getD i 0 = 0 ∨ uv.getD i 0 = 1) ∧
          0 ≤ pv.getD i 0 ∧
          pv.getD i 0 ≤ (units.getD i dUnit).max_power) ∧
       pv.sum = D ∧
       (∀ i, i < units.length →
          (units.getD i dUnit).min_power * ((uv.getD i 0 : Int) : ℚ) ≤
            pv.getD i 0 ∧
          pv.getD i 0 ≤
            (units.getD i dUnit).max_power * ((uv.getD i 0 : Int) : ℚ)))) := by
  refine ⟨?_, ?_, ?_⟩
  · simp [buildSingle, scrubSP, List.map_map, Function.comp]
  · intro uv pv
    unfold spObjective buildSingle
    rw [List.zip_map_left, List.map_map]
    rfl
  · intro uv pv
    unfold spFeasible buildSingle
    simp only [List.length_map]
    constructor
    · rintro ⟨h1, h2, h3⟩
      refine ⟨?_, h2, ?_⟩
      · intro i hi
        have h4 := h1 i hi
        simpa only [getD_map_of_lt units (fun u => u.max_power) 0 i hi]
          using h4
      · intro i hi
        have h4 := h3 i hi
        simpa only [getD_map_of_lt units
          (fun u => (u.min_power, u.max_power)) (0, 0) i hi] using h4
    · rintro ⟨h1, h2, h3⟩
      refine ⟨?_, h2, ?_⟩
      · intro i hi
        have h4 := h1 i hi
        simpa only [getD_map_of_lt units (fun u => u.max_power) 0 i hi]
          using h4
      · intro i hi
        have h4 := h3 i hi
        simpa only [getD_map_of_lt units
          (fun u => (u.min_power, u.max_power)) (0, 0) i hi] using h4

/-- Witness for C8: on the sample unit, the problem is unchanged by erasing
the ignored fields, and the objective of committing it at 50 MW is 50
(startup 0 plus fuel 1 times 50). -/
theorem claim_C8_witness :
    buildSingle [sUnit] 50 = buildSingle ([sUnit].map scrubSP) 50 ∧
    spObjective (buildSingle [sUnit] 50) [1] [50] = 50 := by
  have h := claim_C8 [sUnit] 50
  refine ⟨h.1, ?_⟩
  rw [h.2.1 [1] [50]]
  norm_num [sUnit, List.zip]

/-- Claim C1, as stated, is false: on an input accepted by
`validate_inputs`, when the solver reports `Infeasible` the source still
invokes the auditor (single_period_optimizer.py line 143 runs
unconditionally), and here the audit rejects the all-zero assignment, so
`optimize` raises a `ConstraintViolation` instead of returning a Solution
with `is_optimal = false`. -/
theorem claim_C1_counterexample :
    oracleInfS.status = .Infeasible ∧
    validateSingle eps [sUnit] dOne = .ok true ∧
    optimizeSingle eps oracleInfS [sUnit] dOne =
      .error (.constraintViolation ⟨.balance, none, some 0⟩) := by
  have hval : validateSingle eps [sUnit] dOne = .ok true := by
    rw [validateSingle]
    rw [if_neg (by simp)]
    rw [if_neg (by norm_num [dOne, Demand.get_periods])]
    rw [show dOne.get_demand 0 = .ok 50 by
      rw [Demand.get_demand]
      rw [if_pos (by norm_num [dOne])]
      rfl]
    rw [bind_ok_red]
    rw [if_neg (by norm_num [totalCapacity, sUnit, eps])]
  have hbal : balViol (extractSingle oracleInfS [sUnit] 50) dOne 0 = true := by
    have h1 : (extractSingle oracleInfS [sUnit] 50).get_total_power 0 = 0 := by
      norm_num [extractSingle, oracleInfS, Solution.get_total_power,
        List.range_succ]
    norm_num [balViol, h1, dOne, eps]
  have hvpb : validate_power_balance (extractSingle oracleInfS [sUnit] 50)
      dOne = .error ⟨.balance, none, some 0⟩ := by
    rw [validate_power_balance]
    rw [show dOne.get_periods = 1 from rfl]
    rw [show List.range 1 = [0] from rfl]
    rw [List.find?_cons_of_pos _ hbal]
  refine ⟨rfl, hval, ?_⟩
  rw [optimizeSingle]
  rw [hval]
  rw [mapError_ok_red, bind_ok_red]
  rw [show dOne.get_demand 0 = .ok 50 by
    rw [Demand.get_demand]
    rw [if_pos (by norm_num [dOne])]
    rfl]
  rw [mapError_ok_red, bind_ok_red]
  have hvs : validate_solution (extractSingle oracleInfS [sUnit] 50) [sUnit]
      dOne = .error ⟨.balance, none, some 0⟩ := by
    unfold validate_solution
    rw [hvpb]
    rfl
  simp only [hvs, mapError_err_red, bind_err_red]

/-- Claim C1 (amended): on any accepted input with a non-optimal solver
outcome, both optimizers construct a Solution carrying
`is_optimal = false` and the solver status in its metadata, but the audit
is not skipped — the result of `optimize` factors through the auditor on
that Solution, returning it only when the audit passes and propagating the
auditor's `ConstraintViolation` otherwise. -/
theorem claim_C1_amended (tol : ℚ) (oS : OracleS) (oM : OracleM)
    (unitsS unitsM : List Unit) (dS dM : Demand) (D : ℚ)
    (hS : validateSingle tol unitsS dS = .ok true)
    (hD : dS.get_demand 0 = .ok D)
    (hM : validateMulti tol unitsM dM = .ok true)
    (hoS : oS.status ≠ .Optimal) (hoM : oM.status ≠ .Optimal) :
    optimizeSingle tol oS unitsS dS =
      ((validate_solution (extractSingle oS unitsS D) unitsS dS).mapError
        OptError.constraintViolation).map
          (fun _ => extractSingle oS unitsS D) ∧
    (extractSingle oS unitsS D).is_optimal = false ∧
    (extractSingle oS unitsS D).metadata.lookup ("solver_status") =
      some (MetaVal.str oS.status.text) ∧
    optimizeMulti tol oM unitsM dM =
      ((validate_solution (extractMulti oM unitsM dM) unitsM dM).mapError
        OptError.constraintViolation).map
          (fun _ => extractMulti oM unitsM dM) ∧
    (extractMulti oM unitsM dM).is_optimal = false ∧
    (extractMulti oM unitsM dM).metadata.lookup ("solver_status") =
      some (MetaVal.str oM.status.text) := by
  refine ⟨?_, by simp [extractSingle, hoS],
    by simp [extractSingle, List.lookup_cons], ?_,
    by simp [extractMulti, hoM],
    by simp [extractMulti, List.lookup_cons]⟩
  · rw [optimizeSingle, hS, mapError_ok_red, bind_ok_red, hD,
      mapError_ok_red, bind_ok_red]
    cases hv : validate_solution (extractSingle oS unitsS D) unitsS dS with
    | ok b => simp [hv, Except.map]
    | error e => simp [hv, Except.map]
  · rw [optimizeMulti, hM, mapError_ok_red, bind_ok_red]
    cases hv : validate_solution (extractMulti oM unitsM dM) unitsM dM with
    | ok b => simp [hv, Except.map]
    | error e => simp [hv, Except.map]

/-- Witness for C1 (amended) at the concrete infeasible outcomes on
accepted inputs. -/
theorem claim_C1_witness :
    (extractSingle oracleInfS [sUnit] 50).is_optimal = false ∧
    (extractMulti oracleInfM [sUnit] dTwo).is_optimal = false := by
  have hS : validateSingle eps [sUnit] dOne = .ok true := by
    rw [validateSingle]
    rw [if_neg (by simp)]
    rw [if_neg (by norm_num [dOne, Demand.get_periods])]
    rw [show dOne.get_demand 0 = .ok 50 by
      rw [Demand.get_demand]
      rw [if_pos (by norm_num [dOne])]
      rfl]
    rw [bind_ok_red]
    rw [if_neg (by norm_num [totalCapacity, sUnit, eps])]
  have hM : validateMulti eps [sUnit] dTwo = .ok true := by
    rw [validateMulti]
    rw [if_neg (by simp)]
    rw [if_neg (by norm_num [dTwo, Demand.get_periods])]
    rw [if_neg (by norm_num [totalCapacity, sUnit, dTwo,
      Demand.get_peak_demand, eps])]
  have h := claim_C1_amended eps oracleInfS oracleInfM [sUnit] [sUnit]
    dOne dTwo 50 hS
    (by rw [Demand.get_demand]
        rw [if_pos (by norm_num [dOne])]
        rfl)
    hM (by simp [oracleInfS]) (by simp [oracleInfM])
  exact ⟨h.2.1, h.2.2.2.2.1⟩

/-- Claim C2 names a real inconsistency in the code: under demand `[10, 0]`
the unit `bugUnit` (committed before the horizon with `min_uptime 3`,
`min_power 5`) admits exactly one feasible schedule, `status [[1, 0]]`,
`power [[10, 0]]` — it satisfies every constraint the multi-period builder
emits (the uptime windows starting at `t = 0, 1` would cross the horizon
end, so no minimum-uptime constraint exists), yet the auditor, which seeds
the on-run length from `initial_status` and checks every 1→0 edge, rejects
it with a min-uptime violation; consequently `optimize` raises
`ConstraintViolation` on its own optimal solution instead of returning it. -/
theorem claim_C2_bug :
    multiModelOK [bugUnit] bugDemand [[1, 0]] [[10, 0]] [[0, 0]] [[0, 1]] =
      true ∧
    bugSol.status = [[1, 0]] ∧
    bugSol.power = [[10, 0]] ∧
    bugSol.is_optimal = true ∧
    validate_solution bugSol [bugUnit] bugDemand =
      .error ⟨.minUpDown, some 1, some 1⟩ ∧
    optimizeMulti eps bugOracle [bugUnit] bugDemand =
      .error (.constraintViolation ⟨.minUpDown, some 1, some 1⟩) := by
  have hpow : ∀ t, bugSol.get_total_power t = tblQ [[10, 0]] 0 t := by
    intro t
    norm_num [bugSol, extractMulti, bugOracle, bugDemand, Solution.get_total_power,
      Demand.get_periods, List.range_succ, tblQ]
  have h1 : validate_power_balance bugSol bugDemand = .ok true := by
    rw [validate_power_balance]
    rw [show List.range bugDemand.get_periods = [0, 1] from rfl]
    rw [List.find?_cons_of_neg _ (by
      norm_num [balViol, hpow, tblQ, bugDemand, eps]), List.find?_cons_of_neg _ (by
      norm_num [balViol, hpow, tblQ, bugDemand, eps])]
    rfl
  have h2 : validate_capacity_limits bugSol [bugUnit] = .ok true := by
    rw [validate_capacity_limits]
    rw [show idxPairs ([bugUnit]).length bugSol.get_num_periods =
      [(0, 0), (0, 1)] from by decide]
    rw [List.find?_cons_of_neg _ (by
      norm_num [capViol, bugUnit, bugSol, extractMulti, bugOracle, bugDemand,
        Solution.get_unit_status, Solution.get_unit_power, tblI, tblQ,
        Demand.get_periods, List.range_succ, eps]),
      List.find?_cons_of_neg _ (by
      norm_num [capViol, bugUnit, bugSol, extractMulti, bugOracle, bugDemand,
        Solution.get_unit_status, Solution.get_unit_power, tblI, tblQ,
        Demand.get_periods, List.range_succ, eps])]
    rfl
  have h3 : validate_ramp_rates bugSol [bugUnit] = .ok true := by
    rw [validate_ramp_rates]
    rw [if_neg (by decide)]
    rw [show idxPairs ([bugUnit]).length bugSol.get_num_periods =
      [(0, 0), (0, 1)] from by decide]
    rw [List.find?_cons_of_neg _ (by
      norm_num [rampUpViol, rampDownViol, bugUnit]),
      List.find?_cons_of_neg _ (by
      norm_num [rampUpViol, rampDownViol, bugUnit])]
    rfl
  have h4 : validate_min_uptime_downtime bugSol [bugUnit] =
      .error ⟨.minUpDown, some 1, some 1⟩ := by decide
  have hvs : validate_solution bugSol [bugUnit] bugDemand =
      .error ⟨.minUpDown, some 1, some 1⟩ := by
    unfold validate_solution
    simp only [h1, h2, h3, h4, bind_ok_red, bind_err_red]
  have hvalM : validateMulti eps [bugUnit] bugDemand = .ok true := by
    rw [validateMulti]
    rw [if_neg (by simp)]
    rw [if_neg (by norm_num [bugDemand, Demand.get_periods])]
    rw [if_neg (by norm_num [totalCapacity, bugUnit, bugDemand,
      Demand.get_peak_demand, eps])]
  refine ⟨?_, by decide, ?_, by decide, hvs, ?_⟩
  · rw [multiModelOK]
    simp only [decide_eq_true_eq]
    refine ⟨by decide, ?_, by decide, by decide, by decide, ?_, ?_, by decide,
      by decide, by decide, by decide⟩
    · norm_num [rectQ, bugUnit, bugDemand, Demand.get_periods]
    · norm_num [bugDemand, Demand.get_periods, List.range_succ, tblQ]
    · norm_num [bugUnit, bugDemand, Demand.get_periods, List.range_succ,
        tblI, tblQ]
  · norm_num [bugSol, extractMulti, bugOracle, bugDemand, Demand.get_periods,
      List.range_succ, tblQ]
  · rw [optimizeMulti]
    rw [hvalM]
    rw [mapError_ok_red, bind_ok_red]
    have hvs2 : validate_solution (extractMulti bugOracle [bugUnit] bugDemand)
        [bugUnit] bugDemand = .error ⟨.minUpDown, some 1, some 1⟩ := hvs
    simp only [hvs2, mapError_err_red, bind_err_red]

end UC
